import Mathlib

/-!
Verification of the asagi request-dispatch runtime (TypeScript) against its
natural-language specification.  The definitions below are a shallow embedding
of the repository's source files:

* `src/packages/asagi/src/server.ts`      — `runChain`, `transformerFromHeader`, `createServer`
* `src/packages/asagi/src/response.ts`    — `ensureResponse`
* `src/packages/asagi/src/middleware.ts`  — `createInputValidator` (lines 150-202)
* `src/packages/asagi/src/transformer.ts` — `jsonTransformer`, `TRANSFORMER_HEADER`
* `src/packages/asagi/src/client.ts`      — network client path-proxy request function
* `src/packages/asagi/src/caller.ts`      — in-process caller request function
* `src/unnamed/part_004`                  — `buildPath`, `buildQueryString`, `buildHeaders`,
                                            `buildBody`, `buildUrl`, `mergeRequestInit`
* `src/unnamed/part_006`                  — `Context` (constructor, output builders, `redirect`)

Modelling conventions:

* JavaScript promises/async are erased: every awaited step runs strictly
  sequentially in the source, so the embedding is direct state passing.
* Thrown exceptions become `Except`; the thrown value is opaque (`Val`).
* JS `Headers` objects are association lists.  JS normalises header names to
  lower case; every header name occurring in the repository is already lower
  case, so the embedding keeps names verbatim (no case folding needed).
* Platform primitives (`JSON.parse`, `JSON.stringify`, `encodeURIComponent`,
  body-stream parsing, `URL`) are external to the repository; they are
  modelled by simple total functions, and no theorem depends on their
  internals beyond totality.
-/

namespace Asagi

/-- JavaScript values as they flow through the framework: payloads, parsed
bodies, thrown values, validated inputs.  `undef` is JS `undefined`. -/
inductive Val where
  | undef : Val
  | null : Val
  | bool (b : Bool) : Val
  | num (n : Int) : Val
  | str (s : String) : Val
  | arr (items : List Val) : Val
  | obj (fields : List (String × Val)) : Val

/-- Model of JS `String.prototype.startsWith` (platform primitive), as a
computable character-list check. -/
def jsStartsWith (s pre : String) : Bool := pre.data.isPrefixOf s.data

/-- ASCII upper-casing of one character (model of the platform primitive). -/
def jsCharUpper (c : Char) : Char :=
  if 97 ≤ c.toNat ∧ c.toNat ≤ 122 then Char.ofNat (c.toNat - 32) else c

/-- Model of JS `String.prototype.toUpperCase` (platform primitive). -/
def jsToUpper (s : String) : String := ⟨s.data.map jsCharUpper⟩

/-- Contiguous-subsequence test on character lists. -/
def hasSubSeq (pat : List Char) : List Char → Bool
  | [] => pat.isEmpty
  | c :: rest => pat.isPrefixOf (c :: rest) || hasSubSeq pat rest

/-- Model of the JS `String(v)` conversion (platform primitive). -/
def jsToString : Val → String
  | .undef => "undefined"
  | .null => "null"
  | .bool b => if b then "true" else "false"
  | .num n => toString n
  | .str s => s
  | .arr _ => ""
  | .obj _ => "[object Object]"

/-- Model of the platform primitive `JSON.stringify` used by the default
`json` transformer (`transformer.ts` line 23).  Only its type matters to the
claims; the encoding here is a straightforward JSON printer. -/
def jsonStringify : Val → String
  | .undef => "null"
  | .null => "null"
  | .bool b => if b then "true" else "false"
  | .num n => toString n
  | .str s => "\"" ++ s ++ "\""
  | .arr items => "[" ++ String.intercalate "," (items.attach.map (fun x => jsonStringify x.1)) ++ "]"
  | .obj fields =>
      "\x7b" ++
        String.intercalate ","
          (fields.attach.map (fun x => "\"" ++ x.1.1 ++ "\":" ++ jsonStringify x.1.2)) ++
      "\x7d"
decreasing_by
  · have := List.sizeOf_lt_of_mem x.2
    simp only [Val.arr.sizeOf_spec]
    omega
  · have h1 := List.sizeOf_lt_of_mem x.2
    have h2 : sizeOf x.1.2 < sizeOf x.1 := by
      obtain ⟨a, b⟩ := x.1
      simp only [Prod.mk.sizeOf_spec]
      omega
    simp only [Val.obj.sizeOf_spec]
    omega

/-- Model of the platform primitive `JSON.parse` (`transformer.ts` line 24).
External to the repository; no claim depends on its output. -/
def jsonParse (_ : String) : Option Val := none

/-! ## JS `Headers` (association list, lower-case names by convention) -/

/-- A JS `Headers` object: ordered association list of (name, value). -/
abbrev HList := List (String × String)

/-- `headers.set(k, v)`: replaces every existing entry for `k`. -/
def hset (h : HList) (k v : String) : HList :=
  h.filter (fun p => p.1 ≠ k) ++ [(k, v)]

/-- `headers.get(k)`. -/
def hget (h : HList) (k : String) : Option String :=
  (h.find? (fun p => p.1 == k)).map (fun p => p.2)

/-- `headers.has(k)`. -/
def hhas (h : HList) (k : String) : Bool :=
  (h.find? (fun p => p.1 == k)).isSome

/-! ## Wire responses (JS `Response`) -/

/-- Body of a wire `Response`.  `null` is the JS `null` body; `formData` is a
multipart body (entries already flattened); `rawVal` stands for a `BodyInit`
passed through unchanged. -/
inductive WireBody where
  | null : WireBody
  | str (s : String) : WireBody
  | formData (entries : List (String × Val)) : WireBody
  | rawVal (v : Val) : WireBody

/-- A JS `Response`.  `statusText` is never inspected by the repository's
runtime logic and is omitted. -/
structure Response where
  status : Nat
  headers : HList
  body : WireBody

/-- `new Response(null, \x7bstatus: 204\x7d)` — the Context's initial response
(`src/unnamed/part_006` line 29). -/
def resp204 : Response := { status := 204, headers := [], body := .null }

/-- `new Response('Internal Server Error', \x7bstatus: 500\x7d)` — the dispatch
boundary's fixed error response (`server.ts` line 37). -/
def ise500 : Response := { status := 500, headers := [], body := .str "Internal Server Error" }

/-! ## Typed outputs (`types.ts`: `TypedOutput`, `Output`) -/

/-- `OutputType` (`types.ts`): the tag of a typed output. -/
inductive OutputType where
  | body | text | json | form | redirect
deriving DecidableEq

/-- Runtime shape of a `TypedOutput`: `\x7btype, body, status, headers?\x7d`.
`status` is always present at runtime (every builder in `part_006` sets it);
`statusText` is never read downstream and is omitted. -/
structure TypedOutput where
  type : OutputType
  body : Val
  status : Nat
  headers : Option HList := none

/-- `Output = TypedOutput | Response` (`types.ts` line 35). -/
inductive Output where
  | typed (o : TypedOutput) : Output
  | raw (r : Response) : Output

/-! ## Transformers (`transformer.ts`) -/

/-- A serialization strategy: `\x7bname, stringify, parse\x7d`. -/
structure Transformer where
  name : String
  stringify : Val → String
  parse : String → Option Val

/-- `TRANSFORMER_HEADER` (`transformer.ts` line 3). -/
def TRANSFORMER_HEADER : String := "x-asagi-transformer"

/-- The default transformer (`transformer.ts` lines 21-25). -/
def jsonTransformer : Transformer :=
  { name := "json", stringify := jsonStringify, parse := jsonParse }

/-- `transformerFromHeader` (`server.ts` lines 46-52).  The JS guard
`if (name)` is false for `null` and for the empty string. -/
def transformerFromHeader (name : Option String) (list : List Transformer) : Transformer :=
  let viaName : Option Transformer :=
    match name with
    | some n => if n = "" then none else list.find? (fun t => t.name == n)
    | none => none
  match viaName with
  | some t => t
  | none => list.headD jsonTransformer

/-- `createServer`'s configured transformer list (`server.ts` line 74):
the default json transformer followed by the user-supplied ones. -/
def configuredTransformers (userList : List Transformer) : List Transformer :=
  jsonTransformer :: userList

/-! ## Output normalisation (`response.ts`: `ensureResponse`) -/

/-- `defaultContentTypes` (`response.ts` lines 5-11). -/
def defaultContentTypes : OutputType → Option String
  | .body => none
  | .text => some "text/plain; charset=utf-8"
  | .json => some "application/json"
  | .form => none
  | .redirect => none

/-- Flattening of a form body: `formData.append` per array item
(`response.ts` lines 38-50). -/
def formEntriesOf : Val → List (String × Val)
  | .obj fields => fields.flatMap (fun p =>
      match p.2 with
      | .arr items => items.map (fun it => (p.1, it))
      | v => [(p.1, v)])
  | _ => []

/-- Pass-through body for text/body kinds (`new Response(result.body, init)`,
`response.ts` line 57). -/
def bodyPass : Val → WireBody
  | .str s => .str s
  | v => .rawVal v

/-- `ensureResponse` (`response.ts` lines 13-58).  The `result === undefined`
branch is unreachable from `runChain` (which only calls it on a present
result) and is not modelled; `init` always carries the (always-present)
status and the output's headers. -/
def ensureResponse (result : Output) (transformer : Transformer) : Response :=
  match result with
  | .raw r => r
  | .typed o =>
      let headers := o.headers.getD []
      let headers :=
        match defaultContentTypes o.type with
        | some ct => if hhas headers "content-type" then headers else hset headers "content-type" ct
        | none => headers
      match o.type with
      | .json => { status := o.status, headers := headers, body := .str (transformer.stringify o.body) }
      | .form => { status := o.status, headers := headers, body := .formData (formEntriesOf o.body) }
      | .redirect => { status := o.status, headers := headers, body := .null }
      | .text => { status := o.status, headers := headers, body := bodyPass o.body }
      | .body => { status := o.status, headers := headers, body := bodyPass o.body }

/-! ## Requests and the per-request Context -/

/-- Model of a JS `Request` as consumed by the runtime.  The platform's byte
stream and its parsers (`req.json()`, `req.formData()`, `URL(...).searchParams`)
are external; the model carries each source's parsed form directly:
`jsonBody` is what `req.clone().json()` yields (`Val.undef` when the body is
not valid JSON, mirroring the `catch` in `parseJsonBody`), `formBody` what
`parseFormBody` yields, and `query` the URL's search parameters. -/
structure Request where
  method : String
  url : String
  headers : HList
  jsonBody : Val := .undef
  formBody : List (String × Val) := []
  query : List (String × String) := []

/-- The per-request `Context` (`src/unnamed/part_006`), generic over the
variables-bag type exactly like the source's `Var` parameter.  The validated
input bag has one slot per source (`json`/`form`/`query`/`params`), mirroring
the keys of `InputSchemas`. -/
structure InputBag where
  json : Option Val := none
  form : Option Val := none
  query : Option Val := none
  params : Option Val := none

/-- The four input-source keys. -/
inductive SourceKey where
  | json | form | query | params
deriving DecidableEq

/-- Lookup in the input bag by source key. -/
def InputBag.get (b : InputBag) : SourceKey → Option Val
  | .json => b.json
  | .form => b.form
  | .query => b.query
  | .params => b.params

/-- JS object spread `\x7b...a, ...b\x7d` on input bags: a key present in `b`
overrides `a`, a key absent from `b` keeps `a`'s value. -/
def bagMerge (a b : InputBag) : InputBag :=
  { json := b.json.orElse (fun _ => a.json)
    form := b.form.orElse (fun _ => a.form)
    query := b.query.orElse (fun _ => a.query)
    params := b.params.orElse (fun _ => a.params) }

/-- The `Context` state (`part_006` lines 18-31): request, extracted path
params, variables bag, in-flight response (initially `resp204`), input bag. -/
structure Ctx (Var : Type) where
  req : Request
  params : List (String × String)
  varBag : Var
  res : Response
  inputBag : InputBag

/-- `new Context(req, params, initialVar, \x7b\x7d)` as built by `runChain`
(`server.ts` line 13; constructor in `part_006` lines 25-31). -/
def mkCtx (req : Request) (params : List (String × String)) (initVar : Var) : Ctx Var :=
  { req := req, params := params, varBag := initVar, res := resp204, inputBag := {} }

/-! ## Context output builders (`part_006` lines 37-70) -/

/-- The `init` argument of an output builder: a bare status number, a
`ResponseInit` object, or absent. -/
inductive BuilderInit where
  | statusNum (n : Nat)
  | obj (status : Option Nat) (headers : Option HList)
  | absent

/-- `createOutputBuilder` (`part_006` lines 37-50):
`status = typeof init === 'number' ? init : (init?.status ?? 200)`, and the
rest of an object init (its headers) is spread into the output. -/
def createOutputBuilder (type : OutputType) (body : Val) (init : BuilderInit) : TypedOutput :=
  match init with
  | .statusNum n => { type := type, body := body, status := n, headers := none }
  | .obj st hs => { type := type, body := body, status := st.getD 200, headers := hs }
  | .absent => { type := type, body := body, status := 200, headers := none }

/-- `c.json(body, status)` with a numeric init, as used by the validator
(`middleware.ts` lines 186-192). -/
def ctxJson (body : Val) (status : Nat) : TypedOutput :=
  createOutputBuilder .json body (.statusNum status)

/-- `c.redirect(path, init)` (`part_006` lines 57-70): status defaults to 302,
the init's headers are normalised and `location` is set to the path. -/
def contextRedirect (path : String) (init : BuilderInit) : TypedOutput :=
  let status := match init with
    | .statusNum n => n
    | .obj st _ => st.getD 302
    | .absent => 302
  let baseHeaders := match init with
    | .obj _ hs => hs.getD []
    | _ => []
  { type := .redirect, body := .undef, status := status,
    headers := some (hset baseHeaders "location" path) }

/-! ## The chain executor (`server.ts` lines 8-44) -/

/-- Thrown JS values are opaque to the executor. -/
abbrev ChainErr := Val

/-- The chain-global `output` closure variable of `runChain` (`server.ts`
line 14), threaded through the computation; it survives exceptions exactly
like a JS closure variable does. -/
abbrev OutVar := Option Output

/-- A middleware/handler step, in state-passing form.  The source signature is
`(context, next) => Promise<Output | undefined>`; here the step receives the
context, the `proceed` continuation (which threads the context and the hidden
`output` variable), and the current hidden `output` variable, and produces
either a thrown value or (final context, returned value), together with the
updated hidden variable. -/
def Step (Var : Type) : Type :=
  Ctx Var →
  (Ctx Var → OutVar → Except ChainErr (Ctx Var) × OutVar) →
  OutVar → Except ChainErr (Ctx Var × Option Output) × OutVar

/-- `invoke` (`server.ts` lines 16-32): run the stack from the current index;
an empty stack returns immediately (`if (!current) return`); otherwise the
current step runs with `next = invoke(index + 1)`, and when it returns a value
other than `undefined` that value is stored in `output` and normalised into
`context.res`. -/
def invoke (t : Transformer) : List (Step Var) → Ctx Var → OutVar →
    Except ChainErr (Ctx Var) × OutVar
  | [], c, out => (.ok c, out)
  | step :: rest, c, out =>
      match step c (fun c2 out2 => invoke t rest c2 out2) out with
      | (.error e, out2) => (.error e, out2)
      | (.ok (c2, result), out2) =>
          match result with
          | none => (.ok c2, out2)
          | some o => (.ok { c2 with res := ensureResponse o t }, some o)

/-- `runChain` (`server.ts` lines 8-44): build the fresh context, run the
stack, and on an uncaught exception replace the response by the fixed 500;
returns the `\x7boutput, response\x7d` pair.  Totality of this function is the
model counterpart of "the returned promise never rejects". -/
def runChain (stack : List (Step Var)) (req : Request) (params : List (String × String))
    (initVar : Var) (t : Transformer) : Option Output × Response :=
  match invoke t stack (mkCtx req params initVar) none with
  | (.ok c, out) => (out, c.res)
  | (.error _, out) => (out, ise500)

/-! ## The input validator (`middleware.ts` lines 96-202, `createInputValidator`) -/

/-- A validation issue (`StandardSchemaV1.Issue`): message and optional path. -/
structure Issue where
  message : String
  path : Option (List String) := none

/-- A standard-schema validation result: either a parsed value or issues.
(`result.issues` present means failure, even when the list is empty.) -/
inductive SchemaResult where
  | ok (value : Val)
  | fail (issues : List Issue)

/-- A standard schema, modelled by its `validate` function. -/
structure Schema where
  validate : Val → SchemaResult

/-- A declared schema set: a subset of the four sources. -/
structure InputSchemasDecl where
  json : Option Schema := none
  form : Option Schema := none
  query : Option Schema := none
  params : Option Schema := none

/-- `parseJsonBody` (`middleware.ts` lines 96-103): the platform body parse,
carried by the request model. -/
def parseJsonBody (req : Request) : Val := req.jsonBody

/-- `parseFormBody` (`middleware.ts` lines 105-124): the multipart/urlencoded
field map, carried by the request model. -/
def parseFormBody (req : Request) : Val := .obj req.formBody

/-- `parseQuery` (`middleware.ts` lines 126-133): the URL's search parameters
as a flat string map. -/
def parseQuery (req : Request) : Val :=
  .obj (req.query.map (fun p => (p.1, .str p.2)))

/-- The context's path-parameter map as a value (`c.params`). -/
def paramsVal (params : List (String × String)) : Val :=
  .obj (params.map (fun p => (p.1, .str p.2)))

/-- `formatIssues` (`middleware.ts` lines 135-139): prefix each issue's path
with the source key (a JS empty-array path is truthy and is prefixed too). -/
def formatIssue (key : String) (i : Issue) : Issue :=
  { i with path := some (match i.path with
      | some p => key :: p
      | none => [key]) }

/-- Issues of one declared source on a given raw value (empty when the source
is not declared or validation succeeds). -/
def sourceIssues (schema : Option Schema) (key : String) (value : Val) : List Issue :=
  match schema with
  | none => []
  | some sch =>
      match sch.validate value with
      | .ok _ => []
      | .fail issues => issues.map (formatIssue key)

/-- The aggregated issue list of the validator on a context, in source order
`json, form, query, params` — exactly the pushes performed by
`createInputValidator` (`middleware.ts` lines 169-183). -/
def validatorIssues (s : InputSchemasDecl) (c : Ctx Var) : List Issue :=
  sourceIssues s.json "json" (parseJsonBody c.req) ++
  sourceIssues s.form "form" (parseFormBody c.req) ++
  sourceIssues s.query "query" (parseQuery c.req) ++
  sourceIssues s.params "params" (paramsVal c.params)

/-- The parsed value collected for one declared source (`collected[key] = result.value`). -/
def sourceCollected (schema : Option Schema) (value : Val) : Option Val :=
  match schema with
  | none => none
  | some sch =>
      match sch.validate value with
      | .ok v => some v
      | .fail _ => none

/-- The `collected` record of the validator on full success path
(`middleware.ts` line 166). -/
def collectedOf (s : InputSchemasDecl) (c : Ctx Var) : InputBag :=
  { json := sourceCollected s.json (parseJsonBody c.req)
    form := sourceCollected s.form (parseFormBody c.req)
    query := sourceCollected s.query (parseQuery c.req)
    params := sourceCollected s.params (paramsVal c.params) }

/-- Encoding of a formatted issue as the JS object sent in the 400 body. -/
def issueVal (i : Issue) : Val :=
  .obj [("message", .str i.message),
        ("path", match i.path with
          | some p => .arr (p.map (fun k => .str k))
          | none => .undef)]

/-- The 400 body `\x7berror: "Invalid input", issues\x7d`
(`middleware.ts` lines 186-192). -/
def invalidInputBody (issues : List Issue) : Val :=
  .obj [("error", .str "Invalid input"), ("issues", .arr (issues.map issueVal))]

/-- `createInputValidator(schemas)` (`middleware.ts` lines 150-202) as a chain
step: validate each declared source in order, aggregating issues; on any
issues return the 400 json output without calling `next`; otherwise merge the
collected values into the input bag and call `next`. -/
def createInputValidator (s : InputSchemasDecl) : Step Var := fun c next out =>
  let issues := validatorIssues s c
  if issues.isEmpty then
    let c2 := { c with inputBag := bagMerge c.inputBag (collectedOf s c) }
    match next c2 out with
    | (.ok c3, out2) => (.ok (c3, none), out2)
    | (.error e, out2) => (.error e, out2)
  else
    (.ok (c, some (.typed (ctxJson (invalidInputBody issues) 400))), out)

/-! ## A step language for quantifying over middleware behaviours

The chain claims quantify over "any step" following the middleware protocol:
a step may do work, may directly assign `c.res`, may call `proceed` at most
once, may return an output or nothing, and may throw.  `StepProg` is that
behaviour space; `StepProg.toStep id` interprets a programme as a real `Step`
whose first action appends its identifier to the variables bag — the
observable entry log (a real middleware can log to `c.var` exactly so). -/

inductive StepProg where
  | proceedThen (setRes : Option Response) (ret : Option Output)
      -- optionally assign `c.res` directly, call `proceed()`, then return `ret`
  | halt (ret : Option Output)
      -- return `ret` without ever calling `proceed()` (every plain handler is of this form)
  | raise (e : ChainErr)
      -- throw without calling `proceed()`
  | proceedRaise (e : ChainErr)
      -- call `proceed()`, then throw

/-- The trace-instrumented variables bag: the list of entered step ids. -/
abbrev TraceVar := List Nat

/-- Interpretation of a step programme as a `Step` (the step's own body;
`id` is appended to the variables bag on entry). -/
def StepProg.toStep (id : Nat) (p : StepProg) : Step TraceVar := fun c next out =>
  let c := { c with varBag := c.varBag ++ [id] }
  match p with
  | .proceedThen setRes ret =>
      let c := match setRes with
        | some r => { c with res := r }
        | none => c
      match next c out with
      | (.ok c2, out2) => (.ok (c2, ret), out2)
      | (.error e, out2) => (.error e, out2)
  | .halt ret => (.ok (c, ret), out)
  | .raise e => (.error e, out)
  | .proceedRaise e =>
      match next c out with
      | (.ok _, out2) => (.error e, out2)
      | (.error e2, out2) => (.error e2, out2)

/-- Interpret a list of step programmes with consecutive ids starting at `i`. -/
def stepsFrom (i : Nat) : List StepProg → List (Step TraceVar)
  | [] => []
  | p :: rest => p.toStep i :: stepsFrom (i + 1) rest

/-- Whether a programme calls `proceed`. -/
def StepProg.proceeds : StepProg → Bool
  | .proceedThen _ _ => true
  | .proceedRaise _ => true
  | .halt _ => false
  | .raise _ => false

/-- No programme in the list throws. -/
def noRaiseB : List StepProg → Bool
  | [] => true
  | .proceedThen _ _ :: rest => noRaiseB rest
  | .halt _ :: _ => true
  | .raise _ :: _ => false
  | .proceedRaise _ :: _ => false

/-- No programme in the list assigns `c.res` directly. -/
def noSetResB : List StepProg → Bool
  | [] => true
  | .proceedThen (some _) _ :: _ => false
  | .proceedThen none _ :: rest => noSetResB rest
  | _ :: _ => true

/-- Every programme in the list calls `proceed`. -/
def allProceedB : List StepProg → Bool
  | [] => true
  | p :: rest => p.proceeds && allProceedB rest

/-- How many steps of the chain are entered: execution walks the list in
order and stops after the first step that does not call `proceed`. -/
def enteredCount : List StepProg → Nat
  | [] => 0
  | p :: rest => if p.proceeds then enteredCount rest + 1 else 1

/-- `[i, i+1, ..., i+n-1]`: the expected entry trace. -/
def idsFrom (i : Nat) : Nat → List Nat
  | 0 => []
  | n + 1 => i :: idsFrom (i + 1) n

/-- The final value of the chain-global `output` variable on a raise-free run:
completion order is the reverse of declaration order, so the last write is the
first entered step (in declaration order) whose return value is not
`undefined`. -/
def chainRet : List StepProg → Option Output
  | [] => none
  | .proceedThen _ ret :: rest =>
      (match ret with
       | some o => some o
       | none => chainRet rest)
  | .halt ret :: _ => ret
  | .raise _ :: _ => none
  | .proceedRaise _ :: rest => chainRet rest

/-- The last direct `c.res` assignment on a raise-free run: assignments
happen at entry, walking inward, so the innermost entered one wins. -/
def chainSetRes : List StepProg → Option Response
  | [] => none
  | .proceedThen setRes _ :: rest =>
      (match chainSetRes rest with
       | some r => some r
       | none => setRes)
  | _ :: _ => none

/-- Whether executing the chain lets an exception escape to the dispatch
boundary: either a step throws before proceeding, or it throws after its
downstream completed, or its downstream itself throws. -/
def chainRaises : List StepProg → Bool
  | [] => false
  | .proceedThen _ _ :: rest => chainRaises rest
  | .halt _ :: _ => false
  | .raise _ :: _ => true
  | .proceedRaise _ :: _ => true

/-- A route as dispatched by `createServer` (`server.ts` lines 101-109): the
executed stack is the declared middleware list followed by the single
handler. -/
structure RouteProg where
  middlewares : List StepProg
  handler : StepProg

/-- The stack `[...route.middlewares, route.handler]` (`server.ts` line 102). -/
def RouteProg.stack (r : RouteProg) : List StepProg :=
  r.middlewares ++ [r.handler]

/-- Run the executor on a programme chain and report the entry trace
(`none` if an exception escaped — the context is then discarded). -/
def runTrace (t : Transformer) (ps : List StepProg) (req : Request)
    (params : List (String × String)) : Option (List Nat) :=
  match invoke t (stepsFrom 0 ps) (mkCtx req params []) none with
  | (.ok c, _) => some c.varBag
  | (.error _, _) => none

/-- Run the executor on a programme chain (the `runChain` entry point). -/
def runChainProg (t : Transformer) (ps : List StepProg) (req : Request)
    (params : List (String × String)) : Option Output × Response :=
  runChain (stepsFrom 0 ps) req params [] t

/-! ## Request building (`src/unnamed/part_004`) -/

/-- Model of the platform primitive `encodeURIComponent`; no claim depends on
the encoding itself. -/
def encodeURIComponent (s : String) : String := s

/-- A request body as built by the proxy: a raw override, JSON-encoded bytes
of a value, or multipart form entries. -/
inductive BodyPayload where
  | raw (s : String)
  | jsonVal (v : Val)
  | formEntries (entries : List (String × Val))

/-- A JS `RequestInit` as the proxy consumes it. -/
structure RequestInitM where
  method : Option String := none
  headers : HList := []
  body : Option BodyPayload := none

/-- The input bag accepted by a proxy request function
(`InputBase`: params/query/json/form/headers/cookie). -/
structure InputBase where
  params : Option (List (String × String)) := none
  query : Option (List (String × Val)) := none
  json : Option Val := none
  form : Option (List (String × Val)) := none
  headers : Option (List (String × Val)) := none
  cookie : Option (List (String × Val)) := none

/-- `buildTemplatePath` (`part_004` lines 4-7). -/
def buildTemplatePath (segments : List String) : String :=
  if segments.isEmpty then "/" else "/" ++ String.intercalate "/" segments

/-- One segment of `buildPath` (`part_004` lines 11-19): a `:name` segment is
substituted from the params map, throwing `Missing path parameter: name` when
absent; other segments pass through. -/
def pathPart (params : Option (List (String × String))) (segment : String) :
    Except String String :=
  if ¬ jsStartsWith segment ":" then Except.ok segment
  else
    let key := segment.drop 1
    match (params.getD []).find? (fun p => p.1 == key) with
    | some pr => Except.ok (encodeURIComponent pr.2)
    | none => Except.error ("Missing path parameter: " ++ key)

/-- The `segments.map(...)` of `buildPath`, which in JS aborts synchronously
at the first thrown `Missing path parameter` error. -/
def buildPathParts (params : Option (List (String × String))) :
    List String → Except String (List String)
  | [] => .ok []
  | seg :: rest => do
      let part ← pathPart params seg
      let parts ← buildPathParts params rest
      .ok (part :: parts)

/-- `buildPath` (`part_004` lines 9-21): substitute each `:name` segment from
the params map, throwing `Missing path parameter: name` when absent. -/
def buildPath (segments : List String) (params : Option (List (String × String))) :
    Except String String :=
  if segments.isEmpty then .ok "/"
  else do
    let parts ← buildPathParts params segments
    .ok ("/" ++ String.intercalate "/" parts)

/-- The first `:name` segment whose parameter is missing, if any — the
parameter `buildPath`'s error names. -/
def firstMissingKey (segments : List String) (params : Option (List (String × String))) :
    Option String :=
  segments.findSome? (fun segment =>
    if jsStartsWith segment ":" then
      let key := segment.drop 1
      match (params.getD []).find? (fun p => p.1 == key) with
      | some _ => none
      | none => some key
    else none)

/-- The query pairs appended by `buildQueryString` (`part_004` lines 23-36):
undefined/null values are skipped, arrays repeat the key, values go through
`String(...)`. -/
def buildQueryPairs (query : Option (List (String × Val))) : List (String × String) :=
  match query with
  | none => []
  | some entries => entries.flatMap (fun p =>
      match p.2 with
      | .undef => []
      | .null => []
      | .arr items => items.map (fun it => (p.1, jsToString it))
      | v => [(p.1, jsToString v)])

/-- `buildQueryString` (`part_004` lines 23-36); `URLSearchParams` percent
encoding is a platform concern not modelled. -/
def buildQueryString (query : Option (List (String × Val))) : String :=
  let ps := buildQueryPairs query
  if ps.isEmpty then ""
  else "?" ++ String.intercalate "&" (ps.map (fun p => p.1 ++ "=" ++ p.2))

/-- Model of the `cookie` package's `serialize(key, value)`. -/
def cookieSerialize (k v : String) : String := k ++ "=" ++ v

/-- `buildHeaders` (`part_004` lines 38-66): set explicit input headers
(skipping undefined/null values), then append serialised cookies to any
existing `cookie` header. -/
def buildHeaders (headers : HList) (input : Option InputBase) : HList :=
  match input with
  | none => headers
  | some inp =>
      let headers :=
        match inp.headers with
        | some entries => entries.foldl (fun acc p =>
            match p.2 with
            | .undef => acc
            | .null => acc
            | v => hset acc p.1 (jsToString v)) headers
        | none => headers
      match inp.cookie with
      | none => headers
      | some entries =>
          let cookies := entries.foldl (fun acc p =>
            match p.2 with
            | .undef => acc
            | .null => acc
            | v => acc ++ [cookieSerialize p.1 (jsToString v)]) []
          if cookies.isEmpty then headers
          else
            match hget headers "cookie" with
            | some existing =>
                hset headers "cookie" (existing ++ "; " ++ String.intercalate "; " cookies)
            | none => hset headers "cookie" (String.intercalate "; " cookies)

/-- `buildBody` (`part_004` lines 68-98): an explicit request-init body wins;
else a json input is encoded (setting `content-type: application/json` if
absent); else form entries are flattened into multipart data.  Returns the
(possibly updated) headers together with the body. -/
def buildBody (input : Option InputBase) (headers : HList) (requestInit : Option RequestInitM) :
    HList × Option BodyPayload :=
  match requestInit.bind (fun ri => ri.body) with
  | some b => (headers, some b)
  | none =>
      match input.bind (fun i => i.json) with
      | some v =>
          let headers :=
            if hhas headers "content-type" then headers
            else hset headers "content-type" "application/json"
          (headers, some (.jsonVal v))
      | none =>
          match input.bind (fun i => i.form) with
          | some entries =>
              let flat := entries.flatMap (fun p =>
                match p.2 with
                | .undef => []
                | .null => []
                | .arr items => items.map (fun it => (p.1, it))
                | v => [(p.1, v)])
              (headers, some (.formEntries flat))
          | none => (headers, none)

/-- `buildUrl` (`part_004` lines 100-102); `new URL` resolution is modelled as
concatenation against the base. -/
def buildUrl (baseUrl : String) (path queryString : String) : String :=
  baseUrl ++ path ++ queryString

/-- `mergeRequestInit` (`part_004` lines 104-117): override fields win,
override headers are set over the base headers. -/
def mergeRequestInit (base override : Option RequestInitM) : RequestInitM :=
  let b := base.getD {}
  let o := override.getD {}
  { method := o.method.orElse (fun _ => b.method)
    headers := o.headers.foldl (fun acc p => hset acc p.1 p.2) b.headers
    body := o.body.orElse (fun _ => b.body) }

/-! ## The network client (`client.ts`) -/

/-- The request handed to the injected fetch function. -/
structure FetchReq where
  url : String
  method : String
  headers : HList
  body : Option BodyPayload

/-- `NodeState` of the client proxy (`client.ts` lines 160-166); the fetch
function is passed separately to the request function below. -/
structure ClientNodeState where
  baseUrl : String
  segments : List String
  transformer : Transformer
  requestInit : Option RequestInitM := none

/-- `parseFormData` (`client.ts` lines 129-140): group repeated keys,
single values stay scalars. -/
def parseFormDataVal (entries : List (String × Val)) : Val :=
  let keys := (entries.map (fun p => p.1)).dedup
  .obj (keys.map (fun k =>
    let values := (entries.filter (fun p => p.1 == k)).map (fun p => p.2)
    (k, match values with
        | [v] => v
        | vs => .arr vs)))

/-- Model of `response.text()`. -/
def responseText : WireBody → String
  | .null => ""
  | .str s => s
  | .formData _ => ""
  | .rawVal v => jsToString v

/-- JS `String.prototype.includes` (platform primitive). -/
def strContains (s pat : String) : Bool :=
  hasSubSeq pat.data s.data

/-- `parseBody` (`client.ts` lines 142-158): dispatch on the response's
content-type.  A transformer parse failure is folded into `none` (in JS it
would reject the call's promise; no claim distinguishes the two). -/
def parseBody (response : Response) (transformer : Transformer) : Option Val :=
  let contentType := (hget response.headers "content-type").getD ""
  if strContains contentType "application/json" then
    transformer.parse (responseText response.body)
  else if jsStartsWith contentType "text/" then
    some (.str (responseText response.body))
  else if strContains contentType "multipart/form-data" then
    some (parseFormDataVal (match response.body with
      | .formData e => e
      | _ => []))
  else none

/-- The uniform result record `\x7bdata, error, status, ok, res\x7d` returned
by every client call (`client.ts` lines 212-218). -/
structure ClientResult where
  data : Option Val
  error : Option Val
  status : Nat
  ok : Bool
  res : Response

/-- The dispatched method of a terminal call (`client.ts` line 188):
`method === 'ALL' ? (mergedInit.method ?? 'GET') : method`. -/
def clientFinalMethod (st : ClientNodeState) (method : String)
    (requestInit : Option RequestInitM) : String :=
  if method == "ALL" then (mergeRequestInit st.requestInit requestInit).method.getD "GET"
  else method

/-- Everything the client request function does before invoking fetch
(`client.ts` lines 179-189): build the path (this is where a missing path
parameter throws), query string, URL, merged init, headers (including the
negotiation header), body and final method. -/
def clientBuiltReq (st : ClientNodeState) (method : String) (input : Option InputBase)
    (requestInit : Option RequestInitM) : Except String FetchReq := do
  let path ← buildPath st.segments (input.bind (fun i => i.params))
  let queryString := buildQueryString (input.bind (fun i => i.query))
  let urlString := buildUrl st.baseUrl path queryString
  let mergedInit := mergeRequestInit st.requestInit requestInit
  let headers := mergedInit.headers
  let headers := buildHeaders headers input
  let headers := hset headers TRANSFORMER_HEADER st.transformer.name
  let (headers, body) := buildBody input headers (some mergedInit)
  let finalMethod := clientFinalMethod st method requestInit
  .ok { url := urlString, method := finalMethod, headers := headers, body := body }

/-- The client's terminal request function (`client.ts` lines 179-219):
build the request, dispatch it through the injected fetch function `f`,
parse the body by content-type, and shape the uniform result. -/
def clientRequest (st : ClientNodeState) (method : String) (f : FetchReq → Response)
    (input : Option InputBase) (requestInit : Option RequestInitM) :
    Except String ClientResult :=
  match clientBuiltReq st method input requestInit with
  | .error e => .error e
  | .ok freq =>
      let response := f freq
      let parsedBody := parseBody response st.transformer
      let ok := decide (200 ≤ response.status) && decide (response.status < 300)
      let isError := decide (400 ≤ response.status) && decide (response.status < 600)
      .ok { data := if ok then parsedBody else none
            error := if isError then parsedBody else none
            status := response.status
            ok := ok
            res := response }

/-! ## The in-process caller (`caller.ts`) -/

/-- A built route as the caller consumes it (`route.ts` shape: method, path
template, middleware list, handler). -/
structure BuiltRouteM (Var : Type) where
  method : String
  path : String
  middlewares : List (Step Var)
  handler : Step Var

/-- `findRouteByTemplate` (`caller.ts` lines 78-88): exact (method, template)
match first, then the `ALL`-method fallback. -/
def findRouteByTemplate (routes : List (BuiltRouteM Var)) (method templatePath : String) :
    Option (BuiltRouteM Var) :=
  let upperMethod := jsToUpper method
  match routes.find? (fun r => r.path == templatePath && jsToUpper r.method == upperMethod) with
  | some r => some r
  | none => routes.find? (fun r => r.path == templatePath && jsToUpper r.method == "ALL")

/-- `NodeState` of the caller proxy (`caller.ts` lines 70-76). -/
structure CallerNodeState (Var : Type) where
  baseUrl : String
  segments : List String
  initVar : Var
  routes : List (BuiltRouteM Var)
  requestInit : Option RequestInitM := none

/-- The synthetic `Request` the caller constructs (`caller.ts` lines 113-118);
its parsed-source fields are derived from the built body and query, matching
what the server-side parsers would recover from the wire. -/
def mkCallerRequest (url method : String) (headers : HList) (body : Option BodyPayload)
    (queryPairs : List (String × String)) : Request :=
  { method := method, url := url, headers := headers
    jsonBody := match body with
      | some (.jsonVal v) => v
      | some (.raw s) => (jsonParse s).getD .undef
      | _ => .undef
    formBody := match body with
      | some (.formEntries e) => e
      | _ => []
    query := queryPairs }

/-- The caller's dispatched method (`caller.ts` line 111), identical to the
client's rule. -/
def callerFinalMethod (st : CallerNodeState Var) (method : String)
    (requestInit : Option RequestInitM) : String :=
  if method == "ALL" then (mergeRequestInit st.requestInit requestInit).method.getD "GET"
  else method

/-- The caller's request function up to and including the chain run
(`caller.ts` lines 102-135): build the synthetic request, resolve the route by
template (throwing when none matches), and invoke the chain executor
directly with the default json transformer. -/
def callerDispatch (st : CallerNodeState Var) (method : String) (input : Option InputBase)
    (requestInit : Option RequestInitM) : Except String (Option Output × Response) := do
  let templatePath := buildTemplatePath st.segments
  let path ← buildPath st.segments (input.bind (fun i => i.params))
  let queryString := buildQueryString (input.bind (fun i => i.query))
  let urlString := buildUrl st.baseUrl path queryString
  let mergedInit := mergeRequestInit st.requestInit requestInit
  let headers := buildHeaders mergedInit.headers input
  let (headers, body) := buildBody input headers (some mergedInit)
  let finalMethod := callerFinalMethod st method requestInit
  let req := mkCallerRequest urlString finalMethod headers body
    (buildQueryPairs (input.bind (fun i => i.query)))
  match findRouteByTemplate st.routes finalMethod templatePath with
  | none => .error ("Route not found for " ++ finalMethod ++ " " ++ templatePath)
  | some route =>
      .ok (runChain (route.middlewares ++ [route.handler]) req
        ((input.bind (fun i => i.params)).getD []) st.initVar jsonTransformer)

/-- What a caller call returns (`caller.ts` lines 137-160): a bare
`\x7bres\x7d` object when the chain produced no typed output, otherwise the
full `\x7bdata, error, status, ok, res\x7d` record. -/
inductive CallerReturn where
  | resOnly (res : Response)
  | full (data : Option Val) (error : Option Val) (status : Nat) (ok : Bool) (res : Response)

/-- Whether a caller return is the full five-field record. -/
def CallerReturn.isFull : CallerReturn → Bool
  | .full _ _ _ _ _ => true
  | .resOnly _ => false

/-- The result shaping of the caller (`caller.ts` lines 137-160): no output or
a raw `Response` output yields `\x7bres\x7d`; a redirect output yields
`data = error = undefined`; otherwise data/error are populated from the
output's body by the status partition, with `ok`/`status` read off the typed
output. -/
def callerShape : Option Output × Response → CallerReturn
  | (none, response) => .resOnly response
  | (some (.raw _), response) => .resOnly response
  | (some (.typed o), response) =>
      let ok := decide (200 ≤ o.status) && decide (o.status < 300)
      let isError := decide (400 ≤ o.status) && decide (o.status < 600)
      if o.type = .redirect then
        .full none none o.status ok response
      else
        .full (if ok then some o.body else none) (if isError then some o.body else none)
          o.status ok response

/-- The caller's terminal request function (`caller.ts` lines 102-161). -/
def callerRequest (st : CallerNodeState Var) (method : String) (input : Option InputBase)
    (requestInit : Option RequestInitM) : Except String CallerReturn :=
  (callerDispatch st method input requestInit).map callerShape

/-! ## Derived validator notions used in statements -/

/-- Whether one (optional) declared source validates its raw value. -/
def sourceOkB : Option Schema → Val → Bool
  | none, _ => true
  | some sch, v =>
      match sch.validate v with
      | .ok _ => true
      | .fail _ => false

/-- Every declared source of the schema set validates successfully on the
given context. -/
def validatorAllOkB (s : InputSchemasDecl) (c : Ctx Var) : Bool :=
  sourceOkB s.json (parseJsonBody c.req) &&
  sourceOkB s.form (parseFormBody c.req) &&
  sourceOkB s.query (parseQuery c.req) &&
  sourceOkB s.params (paramsVal c.params)

/-- The context the validator hands to `proceed` on full success: the input
bag is the spread-merge of the previous bag with the collected values. -/
def mergedCtx (s : InputSchemasDecl) (c : Ctx Var) : Ctx Var :=
  { c with inputBag := bagMerge c.inputBag (collectedOf s c) }

/-! ## Test fixtures used by witnesses and counterexamples -/

/-- A minimal request fixture. -/
def reqFix : Request := { method := "GET", url := "http://localhost/x", headers := [] }

/-- A schema that accepts any value unchanged. -/
def okSchemaFix : Schema := { validate := fun v => .ok v }

/-- A schema that always fails with a single `required` issue. -/
def failSchemaFix : Schema := { validate := fun _ => .fail [{ message := "required" }] }

/-- A second registered transformer fixture. -/
def sjTransformer : Transformer :=
  { name := "superjson", stringify := jsonStringify, parse := jsonParse }

/-- A typed json output fixture. -/
def outJsonA : Output := .typed (ctxJson (.str "a") 200)

/-- Another typed json output fixture. -/
def outJsonB : Output := .typed (ctxJson (.str "b") 201)

/-- Caller fixture: one `GET /x` route whose handler returns nothing, so the
chain produces no typed output. -/
def c5ExState : CallerNodeState TraceVar :=
  { baseUrl := "http://localhost"
    segments := ["x"]
    initVar := []
    routes := [{ method := "GET", path := "/x", middlewares := []
                 handler := (StepProg.halt none).toStep 0 }] }

/-- Caller fixture: one `ALL /x` route whose handler returns a 200 json
output. -/
def c10State : CallerNodeState TraceVar :=
  { baseUrl := "http://localhost"
    segments := ["x"]
    initVar := []
    routes := [{ method := "ALL", path := "/x", middlewares := []
                 handler := (StepProg.halt (some outJsonA)).toStep 0 }] }

/-- Context fixture for the chained-validation scenario: the input bag already
holds a query value merged by an earlier (app-level) validation step. -/
def c7Ctx : Ctx Unit :=
  { req := { reqFix with jsonBody := .obj [("name", .str "kosei")] }
    params := []
    varBag := ()
    res := resp204
    inputBag := { query := some (.obj [("page", .str "1")]) } }

/-- A trivial continuation fixture for validator witnesses. -/
def nextFix : Ctx Unit → OutVar → Except ChainErr (Ctx Unit) × OutVar :=
  fun c out => (.ok c, out)

/-- Schema-set fixture declaring a failing json source. -/
def c4Schemas : InputSchemasDecl := { json := some failSchemaFix }

/-- Schema-set fixture declaring a succeeding json source (the route-level
validation of the chained scenario). -/
def c7Schemas : InputSchemasDecl := { json := some okSchemaFix }

/-- Client fixture navigated to a templated path `users/:id`. -/
def clientStFix : ClientNodeState :=
  { baseUrl := "http://localhost", segments := ["users", ":id"], transformer := jsonTransformer }

/-- Client fixture navigated to a plain path `health`. -/
def healthSt : ClientNodeState :=
  { baseUrl := "", segments := ["health"], transformer := jsonTransformer }

/-- A fetch stub that records nothing and returns an empty 204. -/
def fetchFix : FetchReq → Response := fun _ => resp204

/-- A 304 wire response fixture. -/
def resp304 : Response := { status := 304, headers := [], body := .null }

/-- A fetch stub answering 304 to everything. -/
def f304 : FetchReq → Response := fun _ => resp304

/-- The client result of a 304 answer: no data, no error, not ok. -/
def c5r304 : ClientResult :=
  { data := none, error := none, status := 304, ok := false, res := resp304 }

/-! # Theorems

Helper lemmas first, then one theorem (plus witness / counterexample) per
claim of the specification audit. -/

/-- `headers.set` then `headers.get` on the same name yields the set value. -/
theorem hget_hset_self (h : HList) (k v : String) : hget (hset h k v) k = some v := by
  induction h with
  | nil => simp [hset, hget]
  | cons e rest ih =>
      by_cases he : e.1 = k
      · simp only [hset, List.filter_cons, he] at ih ⊢
        simp only [ne_eq] at ih
        simpa using ih
      · simp only [hset, List.filter_cons, he] at ih ⊢
        simp only [ne_eq] at ih
        simp [hget, List.find?, he]

/-- Execution stops right after the first step that does not call `proceed`. -/
theorem enteredCount_stops (ms1 : List StepProg) (p : StepProg) (rest : List StepProg)
    (h1 : allProceedB ms1 = true) (h2 : p.proceeds = false) :
    enteredCount (ms1 ++ p :: rest) = ms1.length + 1 := by
  induction ms1 with
  | nil => simp [enteredCount, h2]
  | cons q ms ih =>
      simp only [allProceedB, Bool.and_eq_true] at h1
      simp [enteredCount, h1.1, ih h1.2]

/-- A chain without direct response assignments has no last direct write. -/
theorem chainSetRes_of_noSetRes (ps : List StepProg) (h : noSetResB ps = true) :
    chainSetRes ps = none := by
  induction ps with
  | nil => simp [chainSetRes]
  | cons p rest ih =>
      cases p with
      | proceedThen setRes ret =>
          cases setRes with
          | none => simp [chainSetRes, ih (by simpa [noSetResB] using h)]
          | some r => simp [noSetResB] at h
      | halt ret => simp [chainSetRes]
      | raise e => simp [chainSetRes]
      | proceedRaise e => simp [chainSetRes]

/-- Master lemma for raise-free chains: running the executor over the
instrumented programmes appends exactly the consecutive ids of the entered
steps to the variables bag, sets the response according to the
last-write-wins discipline (the first entered step, in declaration order,
whose return value is present — completion order being the reverse of entry
order — else the innermost direct assignment, else the incoming response),
and leaves the chain-global output variable at the last present return. -/
theorem invoke_stepsFrom (t : Transformer) (ps : List StepProg) :
    ∀ (i : Nat) (c : Ctx TraceVar) (out : OutVar), noRaiseB ps = true →
    invoke t (stepsFrom i ps) c out =
      (Except.ok { c with
          varBag := c.varBag ++ idsFrom i (enteredCount ps)
          res := match chainRet ps with
            | some o => ensureResponse o t
            | none => (chainSetRes ps).getD c.res }
        , match chainRet ps with
          | some o => some o
          | none => out) := by
  induction ps with
  | nil =>
      intro i c out _
      simp [stepsFrom, invoke, idsFrom, enteredCount, chainRet, chainSetRes]
  | cons p rest ih =>
      intro i c out h
      cases p with
      | proceedThen setRes ret =>
          have h' : noRaiseB rest = true := by simpa [noRaiseB] using h
          simp only [stepsFrom, invoke, StepProg.toStep]
          rw [ih (i + 1) _ out h']
          cases setRes with
          | none =>
              cases hret : ret with
              | none =>
                  cases hcr : chainRet rest with
                  | none =>
                      cases hcs : chainSetRes rest with
                      | none =>
                          simp [enteredCount, StepProg.proceeds, idsFrom, chainRet, chainSetRes,
                            hcr, hcs]
                      | some r =>
                          simp [enteredCount, StepProg.proceeds, idsFrom, chainRet, chainSetRes,
                            hcr, hcs]
                  | some o =>
                      simp [enteredCount, StepProg.proceeds, idsFrom, chainRet, chainSetRes, hcr]
              | some o =>
                  cases hcr : chainRet rest with
                  | none =>
                      simp [enteredCount, StepProg.proceeds, idsFrom, chainRet, chainSetRes, hcr]
                  | some o2 =>
                      simp [enteredCount, StepProg.proceeds, idsFrom, chainRet, chainSetRes, hcr]
          | some r =>
              cases hret : ret with
              | none =>
                  cases hcr : chainRet rest with
                  | none =>
                      cases hcs : chainSetRes rest with
                      | none =>
                          simp [enteredCount, StepProg.proceeds, idsFrom, chainRet, chainSetRes,
                            hcr, hcs]
                      | some r2 =>
                          simp [enteredCount, StepProg.proceeds, idsFrom, chainRet, chainSetRes,
                            hcr, hcs]
                  | some o =>
                      simp [enteredCount, StepProg.proceeds, idsFrom, chainRet, chainSetRes, hcr]
              | some o =>
                  cases hcr : chainRet rest with
                  | none =>
                      simp [enteredCount, StepProg.proceeds, idsFrom, chainRet, chainSetRes, hcr]
                  | some o2 =>
                      simp [enteredCount, StepProg.proceeds, idsFrom, chainRet, chainSetRes, hcr]
      | halt ret =>
          cases hret : ret with
          | none =>
              simp [stepsFrom, invoke, StepProg.toStep, enteredCount, StepProg.proceeds,
                idsFrom, chainRet, chainSetRes]
          | some o =>
              simp [stepsFrom, invoke, StepProg.toStep, enteredCount, StepProg.proceeds,
                idsFrom, chainRet, chainSetRes]
      | raise e => simp [noRaiseB] at h
      | proceedRaise e => simp [noRaiseB] at h

/-- A chain whose execution raises ends in an executor-level error. -/
theorem invoke_stepsFrom_raises (t : Transformer) (ps : List StepProg) :
    ∀ (i : Nat) (c : Ctx TraceVar) (out : OutVar), chainRaises ps = true →
    ∃ e out2, invoke t (stepsFrom i ps) c out = (.error e, out2) := by
  induction ps with
  | nil => intro i c out h; simp [chainRaises] at h
  | cons p rest ih =>
      intro i c out h
      cases p with
      | proceedThen setRes ret =>
          have h' : chainRaises rest = true := by simpa [chainRaises] using h
          simp only [stepsFrom, invoke, StepProg.toStep]
          obtain ⟨e, out2, he⟩ := ih (i + 1)
            (match setRes with
              | some r => { { c with varBag := c.varBag ++ [i] } with res := r }
              | none => { c with varBag := c.varBag ++ [i] }) out h'
          cases setRes with
          | none =>
              simp only at he
              rw [he]
              exact ⟨e, out2, rfl⟩
          | some r =>
              simp only at he
              rw [he]
              exact ⟨e, out2, rfl⟩
      | halt ret => simp [chainRaises] at h
      | raise e =>
          exact ⟨e, out, by simp [stepsFrom, invoke, StepProg.toStep]⟩
      | proceedRaise e =>
          simp only [stepsFrom, invoke, StepProg.toStep]
          rcases hnx : invoke t (stepsFrom (i + 1) rest) { c with varBag := c.varBag ++ [i] } out
            with ⟨r, out2⟩
          cases r with
          | ok c2 => exact ⟨e, out2, rfl⟩
          | error e2 => exact ⟨e2, out2, rfl⟩

/-- C1: for every dispatched request that matches a route, the Chain Executor
runs exactly the route's declared middleware list followed by its single
handler (`[...middlewares, handler]`, `server.ts` line 102), strictly
sequentially in declaration order: on a raise-free run the observable entry
trace is exactly `0, 1, 2, ...` up to the first step that returns without
invoking its `proceed` continuation, after which no later step (including the
handler) is ever invoked.  Conjunct 1 is the exact trace; conjunct 2: when
every middleware proceeds and the handler (as usual) does not, the trace
covers precisely all middlewares followed by the handler; conjunct 3: a
middleware that short-circuits cuts the trace right there, so neither the
remaining middlewares nor the handler are entered. -/
theorem chain_runs_declared_stack_in_order (t : Transformer) (r : RouteProg)
    (req : Request) (params : List (String × String))
    (hnr : noRaiseB r.stack = true) :
    runTrace t r.stack req params = some (idsFrom 0 (enteredCount r.stack))
    ∧ (allProceedB r.middlewares = true → r.handler.proceeds = false →
        enteredCount r.stack = r.middlewares.length + 1)
    ∧ (∀ ms1 p ms2, r.middlewares = ms1 ++ p :: ms2 → p.proceeds = false →
        allProceedB ms1 = true →
        runTrace t r.stack req params = some (idsFrom 0 (ms1.length + 1))) := by
  have master := invoke_stepsFrom t r.stack 0 (mkCtx req params []) none hnr
  simp only [mkCtx] at master
  refine ⟨?_, ?_, ?_⟩
  · simp [runTrace, master, mkCtx]
  · intro hall hh
    exact enteredCount_stops r.middlewares r.handler [] hall hh
  · intro ms1 p ms2 hms hp hall
    have hcut : enteredCount r.stack = ms1.length + 1 := by
      have : r.stack = ms1 ++ p :: (ms2 ++ [r.handler]) := by
        simp [RouteProg.stack, hms]
      rw [this]
      exact enteredCount_stops ms1 p (ms2 ++ [r.handler]) hall hp
    rw [← hcut]
    simp [runTrace, master, mkCtx]

/-- C1 witness: a route with one proceeding middleware and a plain handler;
both hypotheses hold and the trace is exactly `[0, 1]`. -/
theorem chain_runs_declared_stack_in_order_witness :
    noRaiseB (RouteProg.stack { middlewares := [.proceedThen none none]
                                handler := .halt (some outJsonA) }) = true
    ∧ runTrace jsonTransformer
        (RouteProg.stack { middlewares := [.proceedThen none none]
                           handler := .halt (some outJsonA) }) reqFix [] = some [0, 1] :=
  ⟨rfl, (chain_runs_declared_stack_in_order jsonTransformer
    { middlewares := [.proceedThen none none], handler := .halt (some outJsonA) }
    reqFix [] rfl).1⟩

/-- C2: on a raise-free run, whenever a step's function returns a value other
than `undefined`, its normalisation overwrites the Context's current response
— in particular (conjunct 1, which permits direct pre-`proceed` response
assignments) the final response is the normalisation of the last
non-`undefined` step return in completion order (`chainRet`: completion order
is the reverse of entry order, so that return is the first one in declaration
order among entered steps), overwriting any response a step had assigned
before calling `proceed`; and (conjunct 2) when steps touch the response only
through their return values, a step returning `undefined` leaves the response
untouched, so the run produces exactly the last non-`undefined` return (also
reported as the chain's `output`), or the initial empty 204 response if no
step ever returned a value. -/
theorem chain_last_return_in_completion_order_wins (t : Transformer)
    (ps : List StepProg) (req : Request) (params : List (String × String))
    (hnr : noRaiseB ps = true) :
    (∀ o, chainRet ps = some o →
        runChainProg t ps req params = (some o, ensureResponse o t))
    ∧ (noSetResB ps = true →
        runChainProg t ps req params =
          (chainRet ps, match chainRet ps with
            | some o => ensureResponse o t
            | none => resp204)) := by
  have master := invoke_stepsFrom t ps 0 (mkCtx req params []) none hnr
  simp only [mkCtx] at master
  constructor
  · intro o ho
    simp [runChainProg, runChain, mkCtx, master, ho]
  · intro hns
    have hcs := chainSetRes_of_noSetRes ps hns
    cases hcr : chainRet ps with
    | none => simp [runChainProg, runChain, mkCtx, master, hcr, hcs]
    | some o => simp [runChainProg, runChain, mkCtx, master, hcr]

/-- C2 witness: a middleware assigns a response directly before proceeding and
returns nothing; the handler returns a 201 json output; the final response is
the handler's normalised output (the direct assignment is overwritten), and
the chain's output is the handler's return. -/
theorem chain_last_return_in_completion_order_wins_witness :
    noRaiseB [.proceedThen (some ise500) none, .halt (some outJsonB)] = true
    ∧ chainRet [.proceedThen (some ise500) none, .halt (some outJsonB)] = some outJsonB
    ∧ runChainProg jsonTransformer [.proceedThen (some ise500) none, .halt (some outJsonB)]
        reqFix [] = (some outJsonB, ensureResponse outJsonB jsonTransformer) :=
  ⟨rfl, rfl,
    (chain_last_return_in_completion_order_wins jsonTransformer
      [.proceedThen (some ise500) none, .halt (some outJsonB)] reqFix [] rfl).1
      outJsonB rfl⟩

/-- C3: whenever an exception thrown by a step propagates uncaught through all
enclosing steps (none of the programmes catches: `proceedThen` re-raises any
downstream error), `runChain` still resolves — it is a total function whose
catch branch replaces the response — and the produced response is exactly
status 500 with body `Internal Server Error`, independent of the thrown value
(the thrown `ChainErr` values embedded in `ps` are universally quantified and
never reach the result). -/
theorem chain_uncaught_exception_yields_fixed_500 (t : Transformer)
    (ps : List StepProg) (req : Request) (params : List (String × String))
    (h : chainRaises ps = true) :
    (runChainProg t ps req params).2 = ise500
    ∧ ise500.status = 500
    ∧ ise500.body = WireBody.str "Internal Server Error" := by
  obtain ⟨e, out2, he⟩ := invoke_stepsFrom_raises t ps 0 (mkCtx req params []) none h
  exact ⟨by simp [runChainProg, runChain, he], rfl, rfl⟩

/-- C3 witness: a proceeding middleware followed by a throwing handler; the
dispatch boundary produces the fixed 500 response. -/
theorem chain_uncaught_exception_yields_fixed_500_witness :
    chainRaises [.proceedThen none none, .raise (.str "boom")] = true
    ∧ (runChainProg jsonTransformer [.proceedThen none none, .raise (.str "boom")]
        reqFix []).2 = ise500 :=
  ⟨rfl, (chain_uncaught_exception_yields_fixed_500 jsonTransformer
    [.proceedThen none none, .raise (.str "boom")] reqFix [] rfl).1⟩

/-- An issue of one source always carries a path starting with that source's
key. -/
theorem mem_sourceIssues_path (i : Issue) (sch : Option Schema) (key : String) (v : Val)
    (h : i ∈ sourceIssues sch key v) : ∃ rest, i.path = some (key :: rest) := by
  cases sch with
  | none => simp [sourceIssues] at h
  | some s =>
      simp only [sourceIssues] at h
      cases hv : s.validate v with
      | ok w => simp [hv] at h
      | fail issues =>
          rw [hv] at h
          obtain ⟨j, _, hj⟩ := List.mem_map.mp h
          cases hp : j.path with
          | none => exact ⟨[], by simp [← hj, formatIssue, hp]⟩
          | some p => exact ⟨p, by simp [← hj, formatIssue, hp]⟩

/-- When every declared source validates, the aggregated issue list is
empty. -/
theorem validatorIssues_of_allOk (s : InputSchemasDecl) (c : Ctx Var)
    (h : validatorAllOkB s c = true) : validatorIssues s c = [] := by
  simp only [validatorAllOkB, Bool.and_eq_true] at h
  obtain ⟨⟨⟨h1, h2⟩, h3⟩, h4⟩ := h
  have clear : ∀ (sch : Option Schema) (key : String) (v : Val),
      sourceOkB sch v = true → sourceIssues sch key v = [] := by
    intro sch key v hok
    cases sch with
    | none => simp [sourceIssues]
    | some sc =>
        simp only [sourceOkB] at hok
        cases hv : sc.validate v with
        | ok w => simp [sourceIssues, hv]
        | fail issues => rw [hv] at hok; simp at hok
  simp [validatorIssues, clear _ _ _ h1, clear _ _ _ h2, clear _ _ _ h3, clear _ _ _ h4]

/-- C4: whenever at least one declared source reports issues, the validator
middleware returns — it does not throw (`Except.ok`) — a json-kind 400 output
whose body is `\x7berror: "Invalid input", issues\x7d` with the union of all
declared sources' issues in source order, each path prefixed with its source
name; the result is independent of the `proceed` continuation (so the chain
terminates through the no-`proceed` short-circuit), and the returned context
is exactly the incoming one — in particular the input bag is unchanged and no
partially-validated value of a successful source is merged. -/
theorem validator_failure_short_circuits_with_400 (s : InputSchemasDecl) {Var : Type}
    (c : Ctx Var) (next : Ctx Var → OutVar → Except ChainErr (Ctx Var) × OutVar)
    (out : OutVar) (h : (validatorIssues s c).isEmpty = false) :
    createInputValidator s c next out =
      (Except.ok (c, some (.typed (ctxJson (invalidInputBody (validatorIssues s c)) 400))), out)
    ∧ (ctxJson (invalidInputBody (validatorIssues s c)) 400).type = OutputType.json
    ∧ (ctxJson (invalidInputBody (validatorIssues s c)) 400).status = 400
    ∧ validatorIssues s c =
        sourceIssues s.json "json" (parseJsonBody c.req) ++
        sourceIssues s.form "form" (parseFormBody c.req) ++
        sourceIssues s.query "query" (parseQuery c.req) ++
        sourceIssues s.params "params" (paramsVal c.params)
    ∧ (∀ i ∈ validatorIssues s c, ∃ key rest,
        (key = "json" ∨ key = "form" ∨ key = "query" ∨ key = "params") ∧
        i.path = some (key :: rest)) := by
  refine ⟨by simp [createInputValidator, h], rfl, rfl, rfl, ?_⟩
  intro i hi
  simp only [validatorIssues, List.mem_append] at hi
  rcases hi with ((hi | hi) | hi) | hi
  · obtain ⟨rest, hr⟩ := mem_sourceIssues_path i _ _ _ hi
    exact ⟨"json", rest, Or.inl rfl, hr⟩
  · obtain ⟨rest, hr⟩ := mem_sourceIssues_path i _ _ _ hi
    exact ⟨"form", rest, Or.inr (Or.inl rfl), hr⟩
  · obtain ⟨rest, hr⟩ := mem_sourceIssues_path i _ _ _ hi
    exact ⟨"query", rest, Or.inr (Or.inr (Or.inl rfl)), hr⟩
  · obtain ⟨rest, hr⟩ := mem_sourceIssues_path i _ _ _ hi
    exact ⟨"params", rest, Or.inr (Or.inr (Or.inr rfl)), hr⟩

/-- C4 witness: a declared json schema that fails with one `required` issue;
the validator returns the 400 output on the untouched context. -/
theorem validator_failure_short_circuits_with_400_witness :
    (validatorIssues c4Schemas c7Ctx).isEmpty = false
    ∧ createInputValidator c4Schemas c7Ctx nextFix none =
        (Except.ok (c7Ctx, some (.typed
          (ctxJson (invalidInputBody (validatorIssues c4Schemas c7Ctx)) 400))), none) :=
  ⟨rfl, (validator_failure_short_circuits_with_400 c4Schemas c7Ctx nextFix none rfl).1⟩

/-- C7: when every declared source validates successfully the validator calls
`proceed` on the context whose input bag is the additive spread-merge of the
previous bag with the collected parsed values (conjunct 1); the merged bag
holds the newly parsed value for every collected source and the previous value
for every other key (conjunct 2) — so every key already present stays present
(conjunct 3), and after an app-level query validation followed by a
route-level json validation both values are simultaneously present. -/
theorem validator_success_merges_additively (s : InputSchemasDecl) {Var : Type}
    (c : Ctx Var) (next : Ctx Var → OutVar → Except ChainErr (Ctx Var) × OutVar)
    (out : OutVar) (h : validatorAllOkB s c = true) :
    createInputValidator s c next out =
      (match next (mergedCtx s c) out with
       | (.ok c3, out2) => (.ok (c3, none), out2)
       | (.error e, out2) => (.error e, out2))
    ∧ (∀ k : SourceKey, (mergedCtx s c).inputBag.get k =
        match (collectedOf s c).get k with
        | some v => some v
        | none => c.inputBag.get k)
    ∧ (∀ k v, c.inputBag.get k = some v → ((mergedCtx s c).inputBag.get k).isSome = true) := by
  have hi := validatorIssues_of_allOk s c h
  have hbag : ∀ k : SourceKey, (mergedCtx s c).inputBag.get k =
      match (collectedOf s c).get k with
      | some v => some v
      | none => c.inputBag.get k := by
    intro k
    cases k <;>
      · simp only [mergedCtx, bagMerge, InputBag.get]
        cases (collectedOf s c).json <;> cases (collectedOf s c).form <;>
          cases (collectedOf s c).query <;> cases (collectedOf s c).params <;>
          simp [Option.orElse]
  refine ⟨by simp [createInputValidator, hi, mergedCtx], hbag, ?_⟩
  intro k v hv
  rw [hbag k]
  cases (collectedOf s c).get k <;> simp [hv]

/-- C7 witness: the input bag already holds an (app-level) query value; a
route-level json validation succeeds and afterwards both the query and the
json values are present in the merged bag. -/
theorem validator_success_merges_additively_witness :
    validatorAllOkB c7Schemas c7Ctx = true
    ∧ (mergedCtx c7Schemas c7Ctx).inputBag.get .json = some (.obj [("name", .str "kosei")])
    ∧ (mergedCtx c7Schemas c7Ctx).inputBag.get .query = some (.obj [("page", .str "1")]) :=
  ⟨rfl,
    ((validator_success_merges_additively c7Schemas c7Ctx nextFix none rfl).2.1
      SourceKey.json).trans rfl,
    ((validator_success_merges_additively c7Schemas c7Ctx nextFix none rfl).2.1
      SourceKey.query).trans rfl⟩

/-- C8: for every redirect-kind Output built by the Context's `redirect`
builder (the repository's only redirect constructor), the normalised wire
response has an empty (null) body, carries a `location` header set to the
builder's path argument — the builder sets it unconditionally, so it is
mandatory — and has status 302 unless a status was explicitly given in the
builder's init. -/
theorem redirect_normalises_with_location_and_302 (path : String) (init : BuilderInit)
    (t : Transformer) :
    (ensureResponse (.typed (contextRedirect path init)) t).body = WireBody.null
    ∧ hget (ensureResponse (.typed (contextRedirect path init)) t).headers "location"
        = some path
    ∧ (ensureResponse (.typed (contextRedirect path init)) t).status =
        (match init with
         | .statusNum n => n
         | .obj st _ => st.getD 302
         | .absent => 302) := by
  refine ⟨?_, ?_, ?_⟩
  · cases init <;> simp [ensureResponse, contextRedirect, defaultContentTypes]
  · cases init <;>
      simp [ensureResponse, contextRedirect, defaultContentTypes, hget_hset_self]
  · cases init <;> simp [ensureResponse, contextRedirect]

/-- C6: exactly one transformer is selected per request: the registered
transformer whose name equals the (non-empty) negotiation header value when
one exists (conjunct 1); otherwise — the header names no registered
transformer (conjunct 2) or is absent (conjunct 3) — the first configured
transformer, which `createServer` always makes the default json transformer,
with no error in either case; and every json-kind Output's response body is
exactly the selected transformer's `stringify` applied to the payload
(conjunct 4).  The JS guard `if (name)` treats an empty header value as
absent, hence the non-emptiness hypothesis of conjunct 1. -/
theorem transformer_negotiation_selects_one (name : Option String)
    (userList : List Transformer) (o : TypedOutput) (h : o.type = OutputType.json) :
    (∀ n t, name = some n → n ≠ "" →
        (configuredTransformers userList).find? (fun tr => tr.name == n) = some t →
        transformerFromHeader name (configuredTransformers userList) = t)
    ∧ (∀ n, name = some n →
        (configuredTransformers userList).find? (fun tr => tr.name == n) = none →
        transformerFromHeader name (configuredTransformers userList) = jsonTransformer)
    ∧ (name = none →
        transformerFromHeader name (configuredTransformers userList) = jsonTransformer)
    ∧ (∀ t : Transformer,
        (ensureResponse (.typed o) t).body = WireBody.str (t.stringify o.body)) := by
  refine ⟨?_, ?_, ?_, ?_⟩
  · intro n t hn hne hf
    subst hn
    simp [transformerFromHeader, hne, hf]
  · intro n hn hf
    subst hn
    by_cases hne : n = ""
    · simp [transformerFromHeader, hne, configuredTransformers]
    · simp only [configuredTransformers] at hf
      simp [transformerFromHeader, hne, hf, configuredTransformers]
  · intro hn
    subst hn
    simp [transformerFromHeader, configuredTransformers]
  · intro t
    cases o with
    | mk ty body status headers =>
        cases ty <;> simp_all [ensureResponse]

/-- C6 witness: a registered second transformer is selected by its name, and a
json output's body is its stringify of the payload. -/
theorem transformer_negotiation_selects_one_witness :
    (ctxJson (.str "p") 200).type = OutputType.json
    ∧ (configuredTransformers [sjTransformer]).find?
        (fun tr => tr.name == "superjson") = some sjTransformer
    ∧ transformerFromHeader (some "superjson") (configuredTransformers [sjTransformer])
        = sjTransformer
    ∧ (ensureResponse (.typed (ctxJson (.str "p") 200)) sjTransformer).body
        = WireBody.str (sjTransformer.stringify (.str "p")) :=
  ⟨rfl, rfl,
    (transformer_negotiation_selects_one (some "superjson") [sjTransformer]
      (ctxJson (.str "p") 200) rfl).1 "superjson" sjTransformer rfl (by simp) rfl,
    (transformer_negotiation_selects_one (some "superjson") [sjTransformer]
      (ctxJson (.str "p") 200) rfl).2.2.2 sjTransformer⟩

/-- `Except` bind on a success. -/
theorem except_bind_ok {ε α β : Type} (a : α) (f : α → Except ε β) :
    (Except.ok a >>= f) = f a := rfl

/-- `Except` bind on a failure short-circuits. -/
theorem except_bind_err {ε α β : Type} (e : ε) (f : α → Except ε β) :
    ((Except.error e : Except ε α) >>= f) = Except.error e := rfl

/-- `buildPathParts` aborts at the first `:name` segment whose parameter is
missing, with the error naming that parameter. -/
theorem buildPathParts_missing (params : Option (List (String × String))) (k : String) :
    ∀ segments, firstMissingKey segments params = some k →
    buildPathParts params segments = .error ("Missing path parameter: " ++ k) := by
  intro segments
  induction segments with
  | nil => intro h; simp [firstMissingKey] at h
  | cons seg rest ih =>
      intro h
      by_cases hstart : jsStartsWith seg ":"
      · cases hfind : (params.getD []).find? (fun p => p.1 == seg.drop 1) with
        | some pr =>
            have h' : firstMissingKey rest params = some k := by
              simpa [firstMissingKey, hstart, hfind] using h
            simp [buildPathParts, pathPart, hstart, hfind, ih h', except_bind_ok, except_bind_err]
        | none =>
            have hk : seg.drop 1 = k := by
              simpa [firstMissingKey, hstart, hfind] using h
            rw [hk] at hfind
            simp [buildPathParts, pathPart, hstart, hfind, hk, except_bind_ok, except_bind_err]
      · have h' : firstMissingKey rest params = some k := by
          simpa [firstMissingKey, hstart] using h
        simp [buildPathParts, pathPart, hstart, ih h', except_bind_ok, except_bind_err]

/-- `buildPath` propagates the first missing-parameter error. -/
theorem buildPath_missing (segments : List String) (params : Option (List (String × String)))
    (k : String) (h : firstMissingKey segments params = some k) :
    buildPath segments params = .error ("Missing path parameter: " ++ k) := by
  have hne : segments.isEmpty = false := by
    cases segments with
    | nil => simp [firstMissingKey] at h
    | cons a l => rfl
  simp [buildPath, hne, buildPathParts_missing params k segments h, except_bind_err]

/-- C9: calling a path-proxy request function whose accumulated path contains
a `:name` template segment without that parameter in `input.params` throws an
error naming the (first) missing parameter before any transport activity: the
call's result is that error (conjunct 1) and is entirely independent of the
injected fetch function, which therefore is invoked zero times (conjunct 2 —
two runs with arbitrary different transports coincide). -/
theorem missing_path_param_throws_before_transport (st : ClientNodeState) (method : String)
    (f : FetchReq → Response) (input : Option InputBase) (requestInit : Option RequestInitM)
    (k : String)
    (h : firstMissingKey st.segments (input.bind (fun i => i.params)) = some k) :
    clientRequest st method f input requestInit =
      .error ("Missing path parameter: " ++ k)
    ∧ (∀ g : FetchReq → Response,
        clientRequest st method g input requestInit =
          clientRequest st method f input requestInit) := by
  have hb := buildPath_missing st.segments (input.bind (fun i => i.params)) k h
  have hreq : clientBuiltReq st method input requestInit =
      .error ("Missing path parameter: " ++ k) := by
    simp [clientBuiltReq, hb, except_bind_err]
  constructor
  · simp [clientRequest, hreq]
  · intro g
    simp [clientRequest, hreq]

/-- C9 witness: the proxy path `users/:id` called without params fails with
the error naming `id`, identically for two different transports. -/
theorem missing_path_param_throws_before_transport_witness :
    firstMissingKey clientStFix.segments none = some "id"
    ∧ clientRequest clientStFix "GET" fetchFix none none =
        .error "Missing path parameter: id"
    ∧ clientRequest clientStFix "GET" f304 none none =
        clientRequest clientStFix "GET" fetchFix none none :=
  ⟨rfl,
    (missing_path_param_throws_before_transport clientStFix "GET" fetchFix none none
      "id" rfl).1,
    (missing_path_param_throws_before_transport clientStFix "GET" fetchFix none none
      "id" rfl).2 f304⟩

/-- C10: when a `$all` terminal request function is invoked and the merged
request-init specifies no HTTP method, the in-process caller behaves exactly
as a `$get` call (conjunct 1) and both final-method computations yield `GET`
(conjuncts 3); when a method is specified in the merged init, that method is
dispatched instead by both caller and client (conjuncts 2 and 4) and, for the
caller, it is the final method that drives the route lookup — which tries the
exact-method match before the `ALL`-method fallback (conjuncts 5 and 6). -/
theorem all_method_defaults_to_get {Var : Type} (st : CallerNodeState Var)
    (stc : ClientNodeState) (input : Option InputBase) (requestInit : Option RequestInitM) :
    ((mergeRequestInit st.requestInit requestInit).method = none →
        callerRequest st "ALL" input requestInit = callerRequest st "GET" input requestInit)
    ∧ (∀ m, (mergeRequestInit st.requestInit requestInit).method = some m →
        callerFinalMethod st "ALL" requestInit = m)
    ∧ ((mergeRequestInit stc.requestInit requestInit).method = none →
        clientFinalMethod stc "ALL" requestInit = "GET")
    ∧ (∀ m, (mergeRequestInit stc.requestInit requestInit).method = some m →
        clientFinalMethod stc "ALL" requestInit = m)
    ∧ (∀ (routes : List (BuiltRouteM Var)) (m p : String) (r : BuiltRouteM Var),
        routes.find? (fun rt => rt.path == p && jsToUpper rt.method == jsToUpper m) = some r →
        findRouteByTemplate routes m p = some r)
    ∧ (∀ (routes : List (BuiltRouteM Var)) (m p : String),
        routes.find? (fun rt => rt.path == p && jsToUpper rt.method == jsToUpper m) = none →
        findRouteByTemplate routes m p =
          routes.find? (fun rt => rt.path == p && jsToUpper rt.method == "ALL")) := by
  refine ⟨?_, ?_, ?_, ?_, ?_, ?_⟩
  · intro h
    have hfm : callerFinalMethod st "ALL" requestInit = callerFinalMethod st "GET" requestInit := by
      simp [callerFinalMethod, h]
    simp only [callerRequest, callerDispatch, hfm]
  · intro m h
    simp [callerFinalMethod, h]
  · intro h
    simp [clientFinalMethod, h]
  · intro m h
    simp [clientFinalMethod, h]
  · intro routes m p r h
    simp [findRouteByTemplate, h]
  · intro routes m p h
    simp [findRouteByTemplate, h]

/-- C10 witness: on a caller with one `ALL /x` route and no configured method,
`$all` and `$get` calls coincide. -/
theorem all_method_defaults_to_get_witness :
    (mergeRequestInit c10State.requestInit none).method = none
    ∧ callerRequest c10State "ALL" none none = callerRequest c10State "GET" none none :=
  ⟨rfl, (all_method_defaults_to_get c10State healthSt none none).1 rfl⟩

/-- A response without a `content-type` header parses to no body value. -/
theorem parseBody_none_of_no_content_type (resp : Response) (tr : Transformer)
    (h : hget resp.headers "content-type" = none) : parseBody resp tr = none := by
  simp only [parseBody, h, Option.getD]
  rfl

/-- C5 counterexample: a caller call on a matched `GET /x` route whose handler
returns nothing yields the bare `\x7bres\x7d` object (`caller.ts` lines
137-139), not the claimed five-field `\x7bdata, error, status, ok, res\x7d`
shape — although the underlying response's status 204 lies in `[200,300)`, the
returned object carries no `ok`/`status`/`data`/`error` fields at all, so the
claim as stated is false for this call. -/
theorem caller_result_lacks_claimed_shape :
    (callerRequest c5ExState "GET" none none).map CallerReturn.isFull = .ok false
    ∧ callerRequest c5ExState "GET" none none = .ok (.resOnly resp204)
    ∧ resp204.status = 204 := ⟨rfl, rfl, rfl⟩

/-- C5 (amended): every network-client call that resolves returns the
five-field record with `ok ⇔ status ∈ [200,300)`, `data` populated only when
ok, `error` populated only when the status lies in `[400,600)`, and no
data/error at all when the response carries no content-type (conjunct 1 —
this covers redirect responses, whose normalisation has a null body and no
content-type default); every caller call whose chain produced a typed Output
returns the five-field record with the same partition read off the output's
status, and redirect-kind outputs always yield `data = error = undefined`
regardless of status (conjuncts 2 and 3); but a caller call whose chain
produced no typed Output — no step returned a value, or a step returned a raw
`Response` — returns the bare `\x7bres\x7d` object (conjuncts 4 and 5). -/
theorem result_shape_partition (st : ClientNodeState) (method : String)
    (f : FetchReq → Response) (input : Option InputBase) (requestInit : Option RequestInitM)
    (r : ClientResult) (hr : clientRequest st method f input requestInit = .ok r) :
    (r.ok = (decide (200 ≤ r.status) && decide (r.status < 300))
      ∧ (r.ok = false → r.data = none)
      ∧ ((decide (400 ≤ r.status) && decide (r.status < 600)) = false → r.error = none)
      ∧ (hget r.res.headers "content-type" = none → r.data = none ∧ r.error = none))
    ∧ (∀ (o : TypedOutput) (resp : Response) (d e : Option Val) (s : Nat) (ok : Bool)
          (r2 : Response), callerShape (some (.typed o), resp) = .full d e s ok r2 →
        s = o.status ∧ ok = (decide (200 ≤ o.status) && decide (o.status < 300))
          ∧ (ok = false → d = none)
          ∧ ((decide (400 ≤ o.status) && decide (o.status < 600)) = false → e = none)
          ∧ r2 = resp)
    ∧ (∀ (o : TypedOutput) (resp : Response), o.type = .redirect →
        callerShape (some (.typed o), resp) =
          .full none none o.status (decide (200 ≤ o.status) && decide (o.status < 300)) resp)
    ∧ (∀ resp : Response, callerShape (none, resp) = .resOnly resp)
    ∧ (∀ (rw : Response) (resp : Response), callerShape (some (.raw rw), resp) = .resOnly resp)
    := by
  refine ⟨?_, ?_, ?_, ?_, ?_⟩
  · cases hcb : clientBuiltReq st method input requestInit with
    | error e => simp [clientRequest, hcb] at hr
    | ok freq =>
        simp only [clientRequest, hcb] at hr
        obtain ⟨rfl⟩ := Except.ok.inj hr
        refine ⟨rfl, ?_, ?_, ?_⟩
        · intro hok
          simpa [hok] using congrArg (fun b => if b then parseBody (f freq) st.transformer
            else none) hok
        · intro herr
          simp [herr]
        · intro hct
          constructor <;> simp [parseBody_none_of_no_content_type (f freq) st.transformer hct]
  · intro o resp d e s ok r2 hcs
    by_cases hrd : o.type = OutputType.redirect
    · simp only [callerShape, hrd, if_pos rfl] at hcs
      obtain ⟨rfl, rfl, rfl, rfl, rfl⟩ := CallerReturn.full.inj hcs
      exact ⟨rfl, rfl, fun _ => rfl, fun _ => rfl, rfl⟩
    · simp only [callerShape, if_neg hrd] at hcs
      obtain ⟨rfl, rfl, rfl, rfl, rfl⟩ := CallerReturn.full.inj hcs
      refine ⟨rfl, rfl, ?_, ?_, rfl⟩
      · intro hok; simp [hok]
      · intro herr; simp [herr]
  · intro o resp hrd
    simp [callerShape, hrd]
  · intro resp; rfl
  · intro rw resp; rfl

/-- C5 witness: a client call answered with status 304 resolves with the full
record in which `ok` is false and both `data` and `error` are absent. -/
theorem result_shape_partition_witness :
    clientRequest healthSt "GET" f304 none none = .ok c5r304
    ∧ c5r304.ok = false ∧ c5r304.status = 304
    ∧ c5r304.data = none ∧ c5r304.error = none :=
  ⟨rfl, rfl, rfl,
    ((result_shape_partition healthSt "GET" f304 none none c5r304 rfl).1.2.1 rfl),
    ((result_shape_partition healthSt "GET" f304 none none c5r304 rfl).1.2.2.1 rfl)⟩

end Asagi
